import Mathlib

/-!
Verification of the `onnx-cpu` module's tensor-marshalling and
inference-session management logic (package `onnx_cpu`, file `onnx_cpu.go`).

The Go code is shallowly embedded as executable Lean definitions:

* `DType` mirrors `ort.TensorElementDataType` (a Go int enum whose zero
  value is `ONNX_TENSOR_ELEMENT_DATA_TYPE_UNDEFINED = 0`); only the
  constructors the module's logic distinguishes are materialised, plus
  representatives of the unsupported kinds (`int64`, `float64`, `int32`).
* `IOInfo` mirrors `ort.InputOutputInfo` (name, element type, dimensions).
* `TVal` mirrors both a gorgonia dense tensor as seen through the calls the
  module makes on it (`Data()` element type, `Shape()`, backing length) and
  the value held by a native `ort.Tensor` handle.
* `TensorMap` mirrors `ml.Tensors` (a Go map from name to dense tensor),
  modelled as an association list with Go-map replace-on-insert semantics.
* Native calls that the module merely forwards to (environment init,
  session creation, `session.Run`) are modelled as assumed-successful or as
  an explicit `Engine` oracle standing for the native run; the number of
  live native tensor handles is tracked by an explicit `Nat` counter so
  that the code's allocate/`defer`-destroy discipline is observable
  (`ort.NewTensor` and each output produced by `Run` allocate one handle,
  `Destroy` releases one).
-/

/-- Element data types, mirroring `ort.TensorElementDataType`. The Go zero
value of the enum is `undefined` (C enum value 0). -/
inductive DType where
  | undefined
  | float32
  | uint8
  | int8
  | int32
  | int64
  | float64
  deriving DecidableEq, Repr

/-- Mirrors `TensorElementDataType.String()` of the Go binding: the native
enum spelling, used as the fallback metadata label and in error text. -/
def DType.goString : DType → String
  | .undefined => "ONNX_TENSOR_ELEMENT_DATA_TYPE_UNDEFINED"
  | .float32 => "ONNX_TENSOR_ELEMENT_DATA_TYPE_FLOAT"
  | .uint8 => "ONNX_TENSOR_ELEMENT_DATA_TYPE_UINT8"
  | .int8 => "ONNX_TENSOR_ELEMENT_DATA_TYPE_INT8"
  | .int32 => "ONNX_TENSOR_ELEMENT_DATA_TYPE_INT32"
  | .int64 => "ONNX_TENSOR_ELEMENT_DATA_TYPE_INT64"
  | .float64 => "ONNX_TENSOR_ELEMENT_DATA_TYPE_DOUBLE"

/-- Mirrors `ort.InputOutputInfo`: one discovered tensor contract. Go `int64`
dimensions are modelled as `Int`. -/
structure IOInfo where
  name : String
  dtype : DType
  dims : List Int
  deriving DecidableEq, Repr

/-- A dense tensor value as the module observes it: `Data()`'s element type,
`Shape()`, and the length of the flat backing buffer. The same record models
the value held by a native tensor handle. -/
structure TVal where
  dtype : DType
  shape : List Int
  dataLen : Nat
  deriving DecidableEq, Repr

/-- Mirrors `ml.Tensors` (a Go `map[string]*tensor.Dense`). -/
abbrev TensorMap := List (String × TVal)

/-- Go map read `m[k]`. -/
def findT (m : TensorMap) (k : String) : Option TVal :=
  (m.find? (fun p => p.1 == k)).map (fun p => p.2)

/-- Go map write `m[k] = v`: replaces an existing binding, otherwise appends. -/
def insertT (m : TensorMap) (k : String) (v : TVal) : TensorMap :=
  if m.any (fun p => p.1 == k) then
    m.map (fun p => if p.1 == k then (k, v) else p)
  else m ++ [(k, v)]

/-- `Shape.FlattenedSize` of the native binding: the product of dimensions.
`ort.NewTensor` fails when this differs from the backing-buffer length. -/
def listProd : List Int → Int
  | [] => 1
  | x :: xs => x * listProd xs

/-- Mirrors `mlmodel.TensorInfo` as populated by `createMetadata` (`Extra` is
a string-to-string map here because the module only ever stores the label
path under key "labels"; inputs keep the Go `nil` map, modelled as `[]`). -/
structure TensorInfo where
  name : String
  dataType : String
  shape : List Int
  extra : List (String × String)
  deriving DecidableEq, Repr

/-- Mirrors `mlmodel.MLMetadata` as populated by `createMetadata`. -/
structure MLMetadata where
  modelName : String
  inputs : List TensorInfo
  outputs : List TensorInfo
  deriving DecidableEq, Repr

/-- Mirrors `DataTypeMap` (onnx_cpu.go line 24): long ONNX labels to Go
spellings, for the two supported types only. -/
def DataTypeMap : DType → Option String
  | .float32 => some "float32"
  | .uint8 => some "uint8"
  | _ => none

/-- Mirrors `convertInt64SliceToInt` (onnx_cpu.go line 414). Go `int` is
64-bit on the module's supported platforms, so the conversion is lossless. -/
def convertInt64SliceToInt (sliceInt64 : List Int) : List Int :=
  sliceInt64.map (fun v => v)

/-- Metadata label for one element type: `DataTypeMap` when supported, else
the native enum spelling (`createMetadata`, onnx_cpu.go lines 380-383). -/
def dataTypeLabel (d : DType) : String :=
  match DataTypeMap d with
  | some s => s
  | none => d.goString

/-- Mirrors `createMetadata` (onnx_cpu.go lines 373-412): projects discovery
results into the cached metadata document; each output's `Extra` carries the
configured label path under "labels". -/
def createMetadata (inputInfo outputInfo : List IOInfo) (labelPath : String) :
    MLMetadata :=
  { modelName := "onnx_model"
    inputs := inputInfo.map (fun i =>
      { name := i.name
        dataType := dataTypeLabel i.dtype
        shape := convertInt64SliceToInt i.dims
        extra := [] })
    outputs := outputInfo.map (fun o =>
      { name := o.name
        dataType := dataTypeLabel o.dtype
        shape := convertInt64SliceToInt o.dims
        extra := [("labels", labelPath)] }) }

/-- Mirrors `modelSession` plus the `onnxCPU` fields the exported methods
read (the native session pointer itself is external state). -/
structure Adapter where
  InputInfo : List IOInfo
  OutputInfo : List IOInfo
  InputType : DType
  OutputType : DType
  metadata : MLMetadata
  deriving DecidableEq, Repr

/-- The distinct construction-failure sites of `initModel`. The unsupported
arguments mirror the `%s` argument of each `errors.Errorf` call: note that
the output-side message prints `inputType` (onnx_cpu.go line 128). -/
inductive InitErr where
  | unsupportedInputType (got : DType)
  | mixedInputTypes
  | unsupportedOutputType (got : DType)
  | mixedOutputTypes
  deriving DecidableEq, Repr

/-- Go `var t ort.TensorElementDataType` zero value, then `t = l[0].DataType`
when the list is non-empty (onnx_cpu.go lines 109-111, 123-126). -/
def headDtype : List IOInfo → DType
  | [] => .undefined
  | i :: _ => i.dtype

/-- The first element whose type differs from `t`, mirroring the homogeneity
loops of `initModel` (onnx_cpu.go lines 116-121, 131-136) which return an
error at the first mismatching tensor. -/
def firstMismatch (l : List IOInfo) (t : DType) : Option IOInfo :=
  l.find? (fun i => i.dtype != t)

/-- Mirrors the validation and session-state construction of `initModel`
(onnx_cpu.go lines 85-158). Native steps (shared-library resolution,
environment initialisation, `GetInputOutputInfo`, session creation) are
modelled as succeeding; `inputInfo`/`outputInfo` stand for the discovery
result. Line 127's condition `outputType != Float && inputType != Uint8` is
translated verbatim, including the apparent copy-paste of `inputType`. -/
def initModel (inputInfo outputInfo : List IOInfo) (labelPath : String) :
    Except InitErr Adapter :=
  if inputInfo ≠ [] ∧ headDtype inputInfo ≠ .float32 ∧ headDtype inputInfo ≠ .uint8 then
    .error (.unsupportedInputType (headDtype inputInfo))
  else
    match firstMismatch inputInfo (headDtype inputInfo) with
    | some _ => .error .mixedInputTypes
    | none =>
      if outputInfo ≠ [] ∧ headDtype outputInfo ≠ .float32 ∧ headDtype inputInfo ≠ .uint8 then
        .error (.unsupportedOutputType (headDtype inputInfo))
      else
        match firstMismatch outputInfo (headDtype outputInfo) with
        | some _ => .error .mixedOutputTypes
        | none =>
          .ok { InputInfo := inputInfo
                OutputInfo := outputInfo
                InputType := headDtype inputInfo
                OutputType := headDtype outputInfo
                metadata := createMetadata inputInfo outputInfo labelPath }

/-- Adapter-level Go state visible to `Metadata`/`Close`: the struct fields
plus the liveness of the native session owned by it. -/
structure AdapterState where
  adapter : Adapter
  sessionLive : Bool
  deriving DecidableEq, Repr

/-- Mirrors the `Metadata` method (onnx_cpu.go lines 172-174): returns the
cached document and a nil error, reading no other state. -/
def MetadataGo (st : AdapterState) : (Except String MLMetadata) × AdapterState :=
  (.ok st.adapter.metadata, st)

/-- Mirrors the `Close` method (onnx_cpu.go lines 346-353): calls the native
`Session.Destroy` (modelled as succeeding, clearing session liveness) and
touches no Go-level adapter field. -/
def CloseGo (st : AdapterState) : (Except String Unit) × AdapterState :=
  (.ok (), { st with sessionLive := false })

/-- The distinct failure sites of one `Infer` call. `panicIndexOutOfRange`
models the Go runtime panic `onnxTensorsToMlTensors` would raise when
indexing `outputs[i]` past the end (not a normal error return). -/
inductive InferErr where
  | missingInput (name : String)
  | typeMismatch (name : String) (actual : DType) (expected : DType)
  | newTensorFailed (name : String)
  | runFailed (msg : String)
  | outputAssertFailed
  | outputNotImplemented (t : DType)
  | inputNotImplemented (t : DType)
  | panicIndexOutOfRange
  deriving DecidableEq, Repr

/-- The native engine behind `session.Run`, abstracted as a pure oracle from
the input tensors' contents to either a run error or the output tensors'
contents. One successful `Run` allocates one native handle per requested
output. -/
abbrev Engine := List TVal → Except String (List TVal)

/-- Mirrors `mlTensorsToOnnxTensors` (onnx_cpu.go lines 306-328),
instantiated at element type `T`. For each contract in declared order: look
up the name (missing ⇒ error), assert `Data().([]T)` (dtype mismatch ⇒
error), then `ort.NewTensor` with the dense tensor's own `Shape()` (fails
when the shape's flattened size differs from the backing length; otherwise
it allocates one native handle, tracked by the `live` counter). On error the
partially built slice is dropped but its handles stay allocated, exactly as
in the Go code. -/
def mlTensorsToOnnxTensors (T : DType) (tensors : TensorMap)
    (info : List IOInfo) (inputs : List TVal) (live : Nat) :
    (Except InferErr (List TVal)) × Nat :=
  match info with
  | [] => (.ok inputs, live)
  | inf :: rest =>
    match findT tensors inf.name with
    | none => (.error (.missingInput inf.name), live)
    | some v =>
      if v.dtype = T then
        if listProd v.shape = (v.dataLen : Int) then
          mlTensorsToOnnxTensors T tensors rest (inputs ++ [v]) (live + 1)
        else (.error (.newTensorFailed inf.name), live)
      else (.error (.typeMismatch inf.name v.dtype inf.dtype), live)

/-- The type-assertion loop of `runModel` (onnx_cpu.go lines 277-283): each
output tensor produced by `Run` must have the dynamic type `N`, else the
call fails with the could-not-convert error. -/
def assertOutputs (N : DType) : List TVal → Except InferErr (List TVal)
  | [] => .ok []
  | t :: ts =>
    if t.dtype = N then
      match assertOutputs N ts with
      | .ok os => .ok (t :: os)
      | .error e => .error e
    else .error .outputAssertFailed

/-- Mirrors `runModel` (onnx_cpu.go lines 270-285). `session.Run` is the
engine oracle applied to the input tensors' contents; a successful run
allocates `outputLen` native output handles (which remain allocated even
when the subsequent type assertion fails, as in the Go code, where they are
only destroyed by the caller's `defer` — never registered on that path). A
pure engine returning a different number of outputs has no native
counterpart and is mapped to a run failure with no allocation. -/
def runModel (eng : Engine) (outputLen : Nat) (inVals : List TVal)
    (N : DType) (live : Nat) : (Except InferErr (List TVal)) × Nat :=
  match eng inVals with
  | .error e => (.error (.runFailed e), live)
  | .ok outs =>
    if outs.length = outputLen then
      match assertOutputs N outs with
      | .ok os => (.ok os, live + outputLen)
      | .error e => (.error e, live + outputLen)
    else (.error (.runFailed "run returned a malformed output list"), live)

/-- Mirrors `onnxTensorsToMlTensors` (onnx_cpu.go lines 331-344): for the
i-th output contract, read `outputs[i]`'s actual shape and data and bind
them under the contract's name in the result map. Indexing past the end of
`outputs` is a Go panic, modelled as the distinguished panic error. -/
def onnxTensorsToMlTensors (outputs : List TVal) (tensors : TensorMap)
    (info : List IOInfo) : Except InferErr TensorMap :=
  match info, outputs with
  | [], _ => .ok tensors
  | _ :: _, [] => .error .panicIndexOutOfRange
  | inf :: rest, t :: ts =>
    onnxTensorsToMlTensors ts (insertT tensors inf.name ⟨t.dtype, t.shape, t.dataLen⟩) rest

/-- The body of `Infer` shared by the two output-type cases after a
successful run (onnx_cpu.go lines 195-224 and 234-263): run the model,
convert outputs, and at scope exit let the deferred destroys release first
the output handles (registered only after `runModel` succeeded) and then
the input handles. -/
def inferRun (Tout : DType) (ocpu : Adapter) (eng : Engine)
    (inputs : List TVal) (live1 : Nat) :
    (Except InferErr TensorMap) × Nat :=
  match runModel eng ocpu.OutputInfo.length inputs Tout live1 with
  | (.error e, live2) => (.error e, live2 - inputs.length)
  | (.ok outs, live2) =>
    match onnxTensorsToMlTensors outs [] ocpu.OutputInfo with
    | .error e => (.error e, live2 - outs.length - inputs.length)
    | .ok m => (.ok m, live2 - outs.length - inputs.length)

/-- The body of `Infer` shared by the two input-type cases (instantiating
the Go generics at `Tin`): convert the caller's map (on failure the handles
created so far leak — the `defer destroyTensors(inputs)` at onnx_cpu.go
lines 192-194 is registered only after the error check at line 189), then
dispatch on the session's output type. -/
def inferBody (Tin : DType) (ocpu : Adapter) (eng : Engine)
    (tensors : TensorMap) (live : Nat) :
    (Except InferErr TensorMap) × Nat :=
  match mlTensorsToOnnxTensors Tin tensors ocpu.InputInfo [] live with
  | (.error e, live1) => (.error e, live1)
  | (.ok inputs, live1) =>
    match ocpu.OutputType with
    | .float32 => inferRun .float32 ocpu eng inputs live1
    | .uint8 => inferRun .uint8 ocpu eng inputs live1
    | t => (.error (.outputNotImplemented t), live1 - inputs.length)

/-- Mirrors `Infer` (onnx_cpu.go lines 179-268): the outer type-dispatch
switch on the session's bound input element type; unsupported stored types
reach the default branch. The `Nat` component is the count of live native
tensor handles before/after the call. -/
def Infer (ocpu : Adapter) (eng : Engine) (tensors : TensorMap)
    (live : Nat) : (Except InferErr TensorMap) × Nat :=
  match ocpu.InputType with
  | .float32 => inferBody .float32 ocpu eng tensors live
  | .uint8 => inferBody .uint8 ocpu eng tensors live
  | t => (.error (.inputNotImplemented t), live)

/-- Fallback adapter value used only to extract the payload of a
known-successful `initModel` in concrete fixtures. -/
def emptyAdapter : Adapter :=
  { InputInfo := [], OutputInfo := [], InputType := .undefined,
    OutputType := .undefined,
    metadata := { modelName := "", inputs := [], outputs := [] } }

/-- Fixture: input contract "a", float32, shape [1]. -/
def fxInA : IOInfo := ⟨"a", .float32, [1]⟩

/-- Fixture: input contract "b", float32, shape [1]. -/
def fxInB : IOInfo := ⟨"b", .float32, [1]⟩

/-- Fixture: output contract "out", float32, shape [1]. -/
def fxOut : IOInfo := ⟨"out", .float32, [1]⟩

/-- Fixture: a float32 dense tensor of shape [1] with one element. -/
def fxValF : TVal := ⟨.float32, [1], 1⟩

/-- Fixture: a uint8 dense tensor of shape [1] with one element. -/
def fxValU : TVal := ⟨.uint8, [1], 1⟩

/-- Fixture engine: a native run that always succeeds and yields one float32
output tensor of shape [1]. -/
def fxEngineF : Engine := fun _ => .ok [fxValF]

/-- Fixture engine: a native run that succeeds but yields a uint8 output, so
the post-run type assertion of a float32-output session fails. -/
def fxEngineU : Engine := fun _ => .ok [fxValU]

/-- Fixture adapter: two float32 inputs "a", "b" and one float32 output
"out", as constructed by `initModel`. -/
def fxAdapterAB : Adapter :=
  match initModel [fxInA, fxInB] [fxOut] "" with
  | .ok a => a
  | .error _ => emptyAdapter

/-- Fixture adapter: one float32 input and zero outputs, as constructed by
`initModel` (the zero-output side skips the type checks). -/
def fxAdapterZeroOut : Adapter :=
  match initModel [⟨"in", .float32, [1]⟩] [] "" with
  | .ok a => a
  | .error _ => emptyAdapter

/-- Fixture input map for `fxAdapterAB` that also carries an unrelated
uint8 tensor under a name matching no contract. -/
def fxMapJunk : TensorMap := [("a", fxValF), ("b", fxValF), ("junk", fxValU)]

/-- The `Except` component of input conversion does not depend on the
live-handle counter: handle bookkeeping never influences control flow. -/
theorem mlT_fst_indep (T : DType) (tensors : TensorMap) (info : List IOInfo) :
    ∀ (acc : List TVal) (live live' : Nat),
      (mlTensorsToOnnxTensors T tensors info acc live).1 =
        (mlTensorsToOnnxTensors T tensors info acc live').1 := by
  induction info with
  | nil => intro acc live live'; rfl
  | cons inf rest ih =>
    intro acc live live'
    simp only [mlTensorsToOnnxTensors]
    cases findT tensors inf.name with
    | none => rfl
    | some v =>
      by_cases h1 : v.dtype = T
      · by_cases h2 : listProd v.shape = (v.dataLen : Int)
        · simp only [h1, if_true, h2, ite_true]
          exact ih (acc ++ [v]) (live + 1) (live' + 1)
        · simp [h1, h2]
      · simp [h1]

/-- Input conversion never produces the index-out-of-range panic: its error
sites are missing input, type mismatch, and native tensor creation. -/
theorem mlT_no_panic (T : DType) (tensors : TensorMap) (info : List IOInfo) :
    ∀ (acc : List TVal) (live : Nat),
      (mlTensorsToOnnxTensors T tensors info acc live).1 ≠
        .error InferErr.panicIndexOutOfRange := by
  induction info with
  | nil => intro acc live h; simp [mlTensorsToOnnxTensors] at h
  | cons inf rest ih =>
    intro acc live
    simp only [mlTensorsToOnnxTensors]
    cases findT tensors inf.name with
    | none => simp
    | some v =>
      by_cases h1 : v.dtype = T
      · by_cases h2 : listProd v.shape = (v.dataLen : Int)
        · simp only [h1, if_true, h2, ite_true]
          exact ih (acc ++ [v]) (live + 1)
        · simp [h1, h2]
      · simp [h1]

/-- When every contract before `c` finds a well-typed, well-shaped tensor,
the conversion fails exactly at `c`: with the missing-input error when
`c.name` is absent, and with the type-mismatch error when the tensor found
for `c.name` has the wrong element type. -/
theorem mlT_error_at (T : DType) (tensors : TensorMap) (pre : List IOInfo) :
    ∀ (c : IOInfo) (post : List IOInfo) (acc : List TVal) (live : Nat),
      (∀ i ∈ pre, ∃ v, findT tensors i.name = some v ∧ v.dtype = T ∧
        listProd v.shape = (v.dataLen : Int)) →
      ((findT tensors c.name = none →
        (mlTensorsToOnnxTensors T tensors (pre ++ c :: post) acc live).1 =
          .error (InferErr.missingInput c.name)) ∧
       (∀ v, findT tensors c.name = some v → v.dtype ≠ T →
        (mlTensorsToOnnxTensors T tensors (pre ++ c :: post) acc live).1 =
          .error (InferErr.typeMismatch c.name v.dtype c.dtype))) := by
  induction pre with
  | nil =>
    intro c post acc live _
    constructor
    · intro hmiss
      simp [mlTensorsToOnnxTensors, hmiss]
    · intro v hfound hneq
      simp [mlTensorsToOnnxTensors, hfound, hneq]
  | cons p rest ih =>
    intro c post acc live hpre
    obtain ⟨w, hw, hwt, hws⟩ := hpre p (by simp)
    have hrest : ∀ i ∈ rest, ∃ v, findT tensors i.name = some v ∧ v.dtype = T ∧
        listProd v.shape = (v.dataLen : Int) := by
      intro i hi; exact hpre i (by simp [hi])
    have := ih c post (acc ++ [w]) (live + 1) hrest
    constructor
    · intro hmiss
      simp only [List.cons_append, mlTensorsToOnnxTensors, hw, hwt, if_true, hws, ite_true]
      exact this.1 hmiss
    · intro v hfound hneq
      simp only [List.cons_append, mlTensorsToOnnxTensors, hw, hwt, if_true, hws, ite_true]
      exact this.2 v hfound hneq

/-- A successful output type assertion returns the run's output list
unchanged. -/
theorem assertOutputs_ok (N : DType) (l : List TVal) :
    ∀ os, assertOutputs N l = .ok os → os = l := by
  induction l with
  | nil => intro os h; simpa [assertOutputs] using h.symm
  | cons t ts ih =>
    intro os h
    simp only [assertOutputs] at h
    by_cases h1 : t.dtype = N
    · simp only [h1, if_true] at h
      cases hrec : assertOutputs N ts with
      | ok os' =>
        rw [hrec] at h
        cases h
        rw [ih os' hrec]
      | error e => rw [hrec] at h; cases h
    · simp [h1] at h

/-- The `Except` component of `runModel` does not depend on the live-handle
counter. -/
theorem runModel_fst_indep (eng : Engine) (outputLen : Nat)
    (inVals : List TVal) (N : DType) (live live' : Nat) :
    (runModel eng outputLen inVals N live).1 =
      (runModel eng outputLen inVals N live').1 := by
  simp only [runModel]
  cases eng inVals with
  | error e => rfl
  | ok outs =>
    by_cases hl : outs.length = outputLen
    · simp only [hl, if_true]
      cases assertOutputs N outs <;> rfl
    · simp [hl]

/-- The `Except` component of `inferRun` does not depend on the live-handle
counter. -/
theorem inferRun_fst_indep (Tout : DType) (ocpu : Adapter) (eng : Engine)
    (inputs : List TVal) (live live' : Nat) :
    (inferRun Tout ocpu eng inputs live).1 =
      (inferRun Tout ocpu eng inputs live').1 := by
  have h := runModel_fst_indep eng ocpu.OutputInfo.length inputs Tout live live'
  simp only [inferRun]
  rcases h1 : runModel eng ocpu.OutputInfo.length inputs Tout live with ⟨r, l⟩
  rcases h2 : runModel eng ocpu.OutputInfo.length inputs Tout live' with ⟨r', l'⟩
  rw [h1, h2] at h
  simp only at h
  subst h
  cases r with
  | error e => rfl
  | ok outs =>
    cases h3 : onnxTensorsToMlTensors outs [] ocpu.OutputInfo <;> simp [h3]

/-- The `Except` component of `inferBody` does not depend on the live-handle
counter. -/
theorem inferBody_fst_indep (Tin : DType) (ocpu : Adapter) (eng : Engine)
    (tensors : TensorMap) (live live' : Nat) :
    (inferBody Tin ocpu eng tensors live).1 =
      (inferBody Tin ocpu eng tensors live').1 := by
  have h := mlT_fst_indep Tin tensors ocpu.InputInfo [] live live'
  simp only [inferBody]
  rcases h1 : mlTensorsToOnnxTensors Tin tensors ocpu.InputInfo [] live with ⟨r, l⟩
  rcases h2 : mlTensorsToOnnxTensors Tin tensors ocpu.InputInfo [] live' with ⟨r', l'⟩
  rw [h1, h2] at h
  simp only at h
  subst h
  cases r with
  | error e => rfl
  | ok inputs =>
    cases ocpu.OutputType <;>
      first
        | rfl
        | exact inferRun_fst_indep _ ocpu eng inputs l l'

/-- The outcome of one `Infer` call does not depend on the number of live
native handles: a failed call leaves every later call's outcome unchanged
(the adapter value itself is never mutated). -/
theorem infer_fst_indep (ocpu : Adapter) (eng : Engine)
    (tensors : TensorMap) (live live' : Nat) :
    (Infer ocpu eng tensors live).1 = (Infer ocpu eng tensors live').1 := by
  simp only [Infer]
  cases ocpu.InputType <;>
    first
      | rfl
      | exact inferBody_fst_indep _ ocpu eng tensors live live'

/-- An input-conversion error propagates unchanged to `Infer`'s result when
the session's bound input type is one of the two dispatched kinds. -/
theorem infer_conv_error (ocpu : Adapter) (eng : Engine)
    (tensors : TensorMap) (live : Nat) (e : InferErr)
    (hT : ocpu.InputType = DType.float32 ∨ ocpu.InputType = DType.uint8)
    (h : (mlTensorsToOnnxTensors ocpu.InputType tensors ocpu.InputInfo [] live).1 =
      .error e) :
    (Infer ocpu eng tensors live).1 = .error e := by
  have main : ∀ T, ocpu.InputType = T →
      (inferBody T ocpu eng tensors live).1 = .error e := by
    intro T hTeq
    rw [hTeq] at h
    simp only [inferBody]
    rcases h1 : mlTensorsToOnnxTensors T tensors ocpu.InputInfo [] live with ⟨r, l⟩
    rw [h1] at h
    simp only at h
    subst h
    rfl
  rcases hT with hT | hT <;> simp only [Infer, hT] <;> exact main _ hT

/-- Inversion for successful construction: the stored session state is
exactly the discovery result, the bound element types are the head types
(Go zero value `undefined` for an empty side), the metadata is the cached
`createMetadata` document, and both sides are type-homogeneous. -/
theorem initModel_ok_inv (inputInfo outputInfo : List IOInfo) (lp : String)
    (ad : Adapter) (h : initModel inputInfo outputInfo lp = .ok ad) :
    ad.InputInfo = inputInfo ∧ ad.OutputInfo = outputInfo ∧
    ad.InputType = headDtype inputInfo ∧ ad.OutputType = headDtype outputInfo ∧
    ad.metadata = createMetadata inputInfo outputInfo lp ∧
    (∀ i ∈ inputInfo, i.dtype = headDtype inputInfo) ∧
    (∀ o ∈ outputInfo, o.dtype = headDtype outputInfo) := by
  simp only [initModel] at h
  split at h
  · cases h
  · split at h
    · cases h
    · rename_i hInNone
      split at h
      · cases h
      · split at h
        · cases h
        · rename_i hOutNone
          cases h
          refine ⟨rfl, rfl, rfl, rfl, rfl, ?_, ?_⟩
          · intro i hi
            have := List.find?_eq_none.mp hInNone i hi
            simpa using this
          · intro o ho
            have := List.find?_eq_none.mp hOutNone o ho
            simpa using this

/-- Replacing the binding of key `k` in place leaves reads of any other key unchanged. -/
theorem find_map_replace (rest : TensorMap) (k n : String) (v : TVal) (h : k ≠ n) :
    findT (rest.map (fun p => if p.1 == k then (k, v) else p)) n = findT rest n := by
  induction rest with
  | nil => rfl
  | cons p tl ih =>
    simp only [findT, List.map_cons, List.find?]
    by_cases hp : p.1 = k
    · have hb : (p.1 == k) = true := by simpa using hp
      have hkn : (k == n) = false := by simpa using h
      have hpn : (p.1 == n) = false := by rw [hp]; simpa using h
      simp only [hb, if_true, hkn, hpn]
      simpa [findT] using ih
    · have hb : (p.1 == k) = false := by simpa using hp
      simp only [hb, Bool.false_eq_true, if_false]
      cases hq : p.1 == n
      · simpa [findT] using ih
      · rfl

/-- Reading a key other than the one just written is unaffected by a Go map write. -/
theorem findT_insertT_ne (m : TensorMap) (k : String) (v : TVal) (n : String)
    (h : k ≠ n) : findT (insertT m k v) n = findT m n := by
  simp only [insertT]
  split
  · exact find_map_replace m k n v h
  · simp only [findT, List.find?_append]
    have hkn : (k == n) = false := by simpa using h
    simp [List.find?, hkn]

/-- A key present after a Go map write is the written key or an existing key. -/
theorem mem_keys_insertT (m : TensorMap) (k : String) (v : TVal) (n : String)
    (h : n ∈ (insertT m k v).map Prod.fst) :
    n = k ∨ n ∈ m.map Prod.fst := by
  simp only [insertT] at h
  split at h
  · simp only [List.map_map, List.mem_map] at h
    obtain ⟨p, hp, hpn⟩ := h
    simp only [Function.comp] at hpn
    by_cases hq : p.1 = k
    · have hb : (p.1 == k) = true := by simpa using hq
      simp only [hb, if_true] at hpn
      left; exact hpn.symm
    · have hb : (p.1 == k) = false := by simpa using hq
      simp only [hb, Bool.false_eq_true, if_false] at hpn
      right
      exact hpn ▸ List.mem_map_of_mem Prod.fst hp
  · simp only [List.map_append, List.mem_append, List.map_cons] at h
    rcases h with h | h
    · right; exact h
    · left; simpa using h

/-- Writing a fresh key appends the binding. -/
theorem insertT_fresh (m : TensorMap) (k : String) (v : TVal)
    (h : k ∉ m.map Prod.fst) : insertT m k v = m ++ [(k, v)] := by
  simp only [insertT]
  have hfalse : m.any (fun p => p.1 == k) = false := by
    rw [Bool.eq_false_iff]
    intro hc
    obtain ⟨p, hp, hpk⟩ := List.any_eq_true.mp hc
    have hpk' : p.1 = k := by simpa using hpk
    exact h (hpk' ▸ List.mem_map_of_mem Prod.fst hp)
  simp [hfalse]

/-- A key present in the key list is found by a map read. -/
theorem findT_isSome_of_mem_keys (m : TensorMap) (n : String)
    (h : n ∈ m.map Prod.fst) : (findT m n).isSome := by
  induction m with
  | nil => simp at h
  | cons p rest ih =>
    simp only [List.map_cons, List.mem_cons] at h
    simp only [findT, List.find?]
    by_cases hp : p.1 = n
    · have hb : (p.1 == n) = true := by simpa using hp
      simp [hb]
    · have hb : (p.1 == n) = false := by simpa using hp
      simp only [hb]
      rcases h with h | h
      · exact absurd h.symm hp
      · simpa [findT] using ih h

/-- Output-map construction never binds a name outside the output contracts: a name absent from the contracts and from the accumulator stays unbound. -/
theorem build_find_none (info : List IOInfo) :
    ∀ (outputs : List TVal) (acc res : TensorMap) (n : String),
      n ∉ info.map IOInfo.name → findT acc n = none →
      onnxTensorsToMlTensors outputs acc info = .ok res → findT res n = none := by
  induction info with
  | nil =>
    intro outputs acc res n _ hacc h
    simp only [onnxTensorsToMlTensors] at h
    cases h
    exact hacc
  | cons inf rest ih =>
    intro outputs acc res n hn hacc h
    simp only [List.map_cons, List.mem_cons] at hn
    push_neg at hn
    cases outputs with
    | nil =>
      simp only [onnxTensorsToMlTensors] at h
      cases h
    | cons t ts =>
      simp only [onnxTensorsToMlTensors] at h
      refine ih ts _ res n hn.2 ?_ h
      rw [findT_insertT_ne _ _ _ _ (fun hk => hn.1 hk.symm)]
      exact hacc

/-- Every key of the constructed output map comes from the accumulator or from an output contract name. -/
theorem build_keys_subset (info : List IOInfo) :
    ∀ (outputs : List TVal) (acc res : TensorMap) (n : String),
      onnxTensorsToMlTensors outputs acc info = .ok res →
      n ∈ res.map Prod.fst → n ∈ acc.map Prod.fst ∨ n ∈ info.map IOInfo.name := by
  induction info with
  | nil =>
    intro outputs acc res n h hm
    simp only [onnxTensorsToMlTensors] at h
    cases h
    exact Or.inl hm
  | cons inf rest ih =>
    intro outputs acc res n h hm
    cases outputs with
    | nil =>
      simp only [onnxTensorsToMlTensors] at h
      cases h
    | cons t ts =>
      simp only [onnxTensorsToMlTensors] at h
      rcases ih ts _ res n h hm with hacc | hrest
      · rcases mem_keys_insertT _ _ _ _ hacc with hk | hold
        · right; simp [hk]
        · left; exact hold
      · right; simp [hrest]

/-- With distinct contract names and an accumulator disjoint from them, the constructed output map binds exactly the accumulator keys followed by the contract names in declared order. -/
theorem build_keys (info : List IOInfo) :
    ∀ (outputs : List TVal) (acc res : TensorMap),
      (info.map IOInfo.name).Nodup →
      (∀ i ∈ info, i.name ∉ acc.map Prod.fst) →
      onnxTensorsToMlTensors outputs acc info = .ok res →
      res.map Prod.fst = acc.map Prod.fst ++ info.map IOInfo.name := by
  induction info with
  | nil =>
    intro outputs acc res _ _ h
    simp only [onnxTensorsToMlTensors] at h
    cases h
    simp
  | cons inf rest ih =>
    intro outputs acc res hnodup hdisj h
    cases outputs with
    | nil =>
      simp only [onnxTensorsToMlTensors] at h
      cases h
    | cons t ts =>
      simp only [onnxTensorsToMlTensors] at h
      have hfresh : inf.name ∉ acc.map Prod.fst := hdisj inf (by simp)
      rw [insertT_fresh acc inf.name _ hfresh] at h
      have hnodup' : (rest.map IOInfo.name).Nodup := by
        simpa using hnodup.of_cons
      have hdisj' : ∀ i ∈ rest, i.name ∉ (acc ++ [(inf.name, (⟨t.dtype, t.shape, t.dataLen⟩ : TVal))]).map Prod.fst := by
        intro i hi
        simp only [List.map_append, List.mem_append, List.map_cons, List.map_nil, List.mem_singleton]
        push_neg
        constructor
        · exact hdisj i (by simp [hi])
        · intro hcontra
          have : inf.name ∈ rest.map IOInfo.name := by
            rw [← hcontra]
            exact List.mem_map_of_mem IOInfo.name hi
          simp only [List.map_cons, List.nodup_cons] at hnodup
          exact hnodup.1 this
      have := ih ts _ res hnodup' hdisj' h
      rw [this]
      simp

/-- Inversion for the type-assertion loop combined with the run: a
successful `runModel` returns exactly the engine's outputs, whose count is
the requested output length. -/
theorem runModel_ok_inv (eng : Engine) (outputLen : Nat) (inVals : List TVal)
    (N : DType) (live live2 : Nat) (outs : List TVal)
    (h : runModel eng outputLen inVals N live = (.ok outs, live2)) :
    outs.length = outputLen := by
  simp only [runModel] at h
  cases he : eng inVals with
  | error e => rw [he] at h; simp at h
  | ok outs0 =>
    rw [he] at h
    by_cases hl : outs0.length = outputLen
    · simp only [hl, if_true] at h
      cases ha : assertOutputs N outs0 with
      | ok os =>
        rw [ha] at h
        simp only [Prod.mk.injEq, Except.ok.injEq] at h
        rw [← h.1, assertOutputs_ok N outs0 os ha]
        exact hl
      | error e => rw [ha] at h; simp at h
    · simp [hl] at h

/-- Inversion for a successful `Infer` call: the result map was produced by
the output-conversion pass over the session's output contracts, from as many
run outputs as there are declared outputs, starting from the fresh empty
map. -/
theorem infer_ok_inv (ocpu : Adapter) (eng : Engine) (tensors : TensorMap)
    (live live' : Nat) (res : TensorMap)
    (h : Infer ocpu eng tensors live = (.ok res, live')) :
    ∃ outs : List TVal, outs.length = ocpu.OutputInfo.length ∧
      onnxTensorsToMlTensors outs [] ocpu.OutputInfo = .ok res := by
  have hrunInv : ∀ Tout inputs l1,
      inferRun Tout ocpu eng inputs l1 = (.ok res, live') →
      ∃ outs : List TVal, outs.length = ocpu.OutputInfo.length ∧
        onnxTensorsToMlTensors outs [] ocpu.OutputInfo = .ok res := by
    intro Tout inputs l1 hr
    simp only [inferRun] at hr
    rcases h2 : runModel eng ocpu.OutputInfo.length inputs Tout l1 with ⟨r2, l2⟩
    rw [h2] at hr
    cases r2 with
    | error e => simp at hr
    | ok outs =>
      have hlen := runModel_ok_inv eng ocpu.OutputInfo.length inputs Tout l1 l2 outs h2
      cases h3 : onnxTensorsToMlTensors outs [] ocpu.OutputInfo with
      | error e => simp [h3] at hr
      | ok m =>
        simp only [h3, Prod.mk.injEq, Except.ok.injEq] at hr
        exact ⟨outs, hlen, by rw [h3, hr.1]⟩
  have hbodyInv : ∀ Tin, inferBody Tin ocpu eng tensors live = (.ok res, live') →
      ∃ outs : List TVal, outs.length = ocpu.OutputInfo.length ∧
        onnxTensorsToMlTensors outs [] ocpu.OutputInfo = .ok res := by
    intro Tin hb
    simp only [inferBody] at hb
    rcases h1 : mlTensorsToOnnxTensors Tin tensors ocpu.InputInfo [] live with ⟨r, l1⟩
    rw [h1] at hb
    cases r with
    | error e => simp at hb
    | ok inputs =>
      rcases hOT : ocpu.OutputType <;> rw [hOT] at hb <;>
        first
          | exact hrunInv _ inputs l1 hb
          | simp at hb
  simp only [Infer] at h
  rcases hIT : ocpu.InputType <;> rw [hIT] at h <;>
    first
      | exact hbodyInv _ h
      | simp at h

/-- The output contracts of the cached metadata document carry exactly the
discovered output names, in order; dually for inputs. -/
theorem createMetadata_names (inputInfo outputInfo : List IOInfo) (lp : String) :
    (createMetadata inputInfo outputInfo lp).inputs.map TensorInfo.name =
      inputInfo.map IOInfo.name ∧
    (createMetadata inputInfo outputInfo lp).outputs.map TensorInfo.name =
      outputInfo.map IOInfo.name := by
  constructor <;> simp [createMetadata, List.map_map, Function.comp]

/-- Claim C1: the spec says construction fails with an unsupported-type
error whenever any output tensor's element type is outside uint8 or float32,
regardless of the input element type. The code instead validates `inputType`
in the output-side check (onnx_cpu.go line 127), so: a model with uint8
input and int64 output constructs successfully, storing the unsupported
int64 as the bound output type; and a model with float32 input and uint8
output — both supported — is wrongly rejected, with an error message that
names the input type. -/
theorem claimC1_output_type_check_bypassed :
    (Except.map Adapter.OutputType
      (initModel [⟨"in", .uint8, [1]⟩] [⟨"out", .int64, [1]⟩] "")) =
        .ok DType.int64 ∧
    (Except.map Adapter.InputType
      (initModel [⟨"in", .uint8, [1]⟩] [⟨"out", .int64, [1]⟩] "")) =
        .ok DType.uint8 ∧
    initModel [⟨"in", .float32, [1]⟩] [⟨"out", .uint8, [1]⟩] "" =
      .error (InitErr.unsupportedOutputType DType.float32) := by
  exact ⟨rfl, rfl, rfl⟩

/-- Claim C2 counterexample: on a concrete adapter (two float32 inputs, one
float32 output), calling Close and then Metadata does not fail with any
error — the call returns the cached metadata document — and a post-Close
Infer with an empty map fails with the ordinary missing-input error, not a
closed-adapter error; no closed-state error exists anywhere in the code. -/
theorem claimC2_counterexample :
    (MetadataGo (CloseGo ⟨fxAdapterAB, true⟩).2).1 = .ok fxAdapterAB.metadata ∧
    (Infer fxAdapterAB fxEngineF [] 0).1 = .error (InferErr.missingInput "a") := by
  exact ⟨rfl, rfl⟩

/-- Claim C2 (amended): Close mutates no Go-level adapter state, and a
Metadata call after Close still succeeds, returning the metadata cached at
construction; the code tracks no closed flag and defines no ClosedError. -/
theorem claimC2_no_closed_state (st : AdapterState) :
    (MetadataGo (CloseGo st).2).1 = .ok st.adapter.metadata ∧
    ((CloseGo st).2).adapter = st.adapter := by
  exact ⟨rfl, rfl⟩

/-- Claim C3: the spec says every native tensor handle created during an
Infer call is destroyed on every exit path. Two exit paths violate this:
(a) a conversion failure after at least one input handle was created — here
the handle for input "a" leaks when "b" is missing, because the deferred
destroy is registered only after the conversion's error check (onnx_cpu.go
lines 188-194); (b) a post-Run output type-assertion failure — starting
from 0 live handles, the call ends with 2 inputs destroyed but 1 run-output
handle still live (runModel returns before any defer for the outputs is
registered, onnx_cpu.go lines 277-283). -/
theorem claimC3_handle_leak_on_error_paths :
    (Infer fxAdapterAB fxEngineF [("a", fxValF)] 0).1 =
      .error (InferErr.missingInput "b") ∧
    (Infer fxAdapterAB fxEngineF [("a", fxValF)] 0).2 = 1 ∧
    (Infer fxAdapterAB fxEngineU [("a", fxValF), ("b", fxValF)] 0).1 =
      .error InferErr.outputAssertFailed ∧
    (Infer fxAdapterAB fxEngineU [("a", fxValF), ("b", fxValF)] 0).2 = 1 := by
  exact ⟨rfl, rfl, rfl, rfl⟩

/-- Claim C4 counterexample: the input map lacks required input "b", yet the
call does not fail with the missing-input error for "b" — the type mismatch
on the earlier contract "a" preempts it. -/
theorem claimC4_counterexample :
    findT [("a", fxValU)] "b" = none ∧
    "b" ∈ fxAdapterAB.InputInfo.map IOInfo.name ∧
    (Infer fxAdapterAB fxEngineF [("a", fxValU)] 0).1 =
      .error (InferErr.typeMismatch "a" DType.uint8 DType.float32) ∧
    (Infer fxAdapterAB fxEngineF [("a", fxValU)] 0).1 ≠
      .error (InferErr.missingInput "b") := by
  refine ⟨rfl, by decide, rfl, ?_⟩
  intro hc
  simp [show (Infer fxAdapterAB fxEngineF [("a", fxValU)] 0).1 =
      .error (InferErr.typeMismatch "a" DType.uint8 DType.float32) from rfl] at hc

/-- Claim C5 counterexample: the supplied tensor under "b" has element type
uint8 while the bound input type is float32, yet the call does not fail
with a type-mismatch error — the missing earlier contract "a" preempts it
with the missing-input error. -/
theorem claimC5_counterexample :
    findT [("b", fxValU)] "b" = some fxValU ∧
    fxValU.dtype ≠ fxAdapterAB.InputType ∧
    (Infer fxAdapterAB fxEngineF [("b", fxValU)] 0).1 =
      .error (InferErr.missingInput "a") ∧
    (Infer fxAdapterAB fxEngineF [("b", fxValU)] 0).1 ≠
      .error (InferErr.typeMismatch "b" DType.uint8 DType.float32) := by
  refine ⟨rfl, by decide, rfl, ?_⟩
  intro hc
  rw [show (Infer fxAdapterAB fxEngineF [("b", fxValU)] 0).1 =
      .error (InferErr.missingInput "a") from rfl] at hc
  simp at hc

/-- Claim C6 counterexample: a model whose two input tensors have distinct
element types (int64 then float32) is rejected, but with the
unsupported-input-type error — the supported-set check on the first input's
type fires before the homogeneity loop — not with the mixed-type error. -/
theorem claimC6_counterexample :
    (⟨"a", .int64, [1]⟩ : IOInfo).dtype ≠ (⟨"b", .float32, [1]⟩ : IOInfo).dtype ∧
    initModel [⟨"a", .int64, [1]⟩, ⟨"b", .float32, [1]⟩] [fxOut] "" =
      .error (InitErr.unsupportedInputType DType.int64) ∧
    initModel [⟨"a", .int64, [1]⟩, ⟨"b", .float32, [1]⟩] [fxOut] "" ≠
      .error InitErr.mixedInputTypes := by
  refine ⟨by decide, rfl, ?_⟩
  intro hc
  rw [show initModel [⟨"a", .int64, [1]⟩, ⟨"b", .float32, [1]⟩] [fxOut] "" =
      .error (InitErr.unsupportedInputType DType.int64) from rfl] at hc
  simp at hc

/-- Claim C10 counterexample: a zero-output model constructs successfully
(the stored output type stays the undefined zero value), but an Infer call
whose map is missing the required input fails with the missing-input error
from input conversion, not with the not-implemented error of the
type-dispatch default branch. -/
theorem claimC10_counterexample :
    initModel [⟨"in", .float32, [1]⟩] [] "" = .ok fxAdapterZeroOut ∧
    fxAdapterZeroOut.OutputType = DType.undefined ∧
    (Infer fxAdapterZeroOut fxEngineF [] 0).1 =
      .error (InferErr.missingInput "in") ∧
    (Infer fxAdapterZeroOut fxEngineF [] 0).1 ≠
      .error (InferErr.outputNotImplemented DType.undefined) := by
  refine ⟨rfl, rfl, rfl, ?_⟩
  intro hc
  rw [show (Infer fxAdapterZeroOut fxEngineF [] 0).1 =
      .error (InferErr.missingInput "in") from rfl] at hc
  simp at hc

/-- Claim C4 (amended): when every contract before `c` (in declared order)
finds a well-typed, well-shaped tensor and `c`'s name is absent from the
caller's map, Infer fails with the missing-input error naming `c`; and a
failed call changes nothing that any later call on the same adapter can
observe (the adapter value is immutable and the outcome of every call is
independent of the native-handle state). -/
theorem claimC4_missing_input_rejection (ocpu : Adapter) (eng : Engine)
    (tensors : TensorMap) (live : Nat) (pre : List IOInfo) (c : IOInfo)
    (post : List IOInfo)
    (hT : ocpu.InputType = DType.float32 ∨ ocpu.InputType = DType.uint8)
    (hsplit : ocpu.InputInfo = pre ++ c :: post)
    (hpre : ∀ i ∈ pre, ∃ v, findT tensors i.name = some v ∧
      v.dtype = ocpu.InputType ∧ listProd v.shape = (v.dataLen : Int))
    (hmiss : findT tensors c.name = none) :
    (Infer ocpu eng tensors live).1 = .error (InferErr.missingInput c.name) ∧
    ∀ tensors2 live2 live3,
      (Infer ocpu eng tensors2 live2).1 = (Infer ocpu eng tensors2 live3).1 := by
  constructor
  · apply infer_conv_error ocpu eng tensors live _ hT
    rw [hsplit]
    exact (mlT_error_at ocpu.InputType tensors pre c post [] live hpre).1 hmiss
  · intro tensors2 live2 live3
    exact infer_fst_indep ocpu eng tensors2 live2 live3

/-- Claim C4 witness: concrete instance — map supplies "a" correctly but
lacks "b"; the call fails with the missing-input error for "b". -/
theorem claimC4_witness :
    (Infer fxAdapterAB fxEngineF [("a", fxValF)] 0).1 =
      .error (InferErr.missingInput "b") :=
  (claimC4_missing_input_rejection fxAdapterAB fxEngineF [("a", fxValF)] 0
    [fxInA] fxInB [] (Or.inl rfl) rfl
    (by
      intro i hi
      have hia : i = fxInA := by simpa using hi
      subst hia
      exact ⟨fxValF, rfl, rfl, by decide⟩)
    rfl).1

/-- Claim C5 (amended): when every contract before `c` (in declared order)
finds a well-typed, well-shaped tensor and the tensor found for `c` has an
element type different from the bound input type, Infer fails with the
type-mismatch error identifying that tensor; no numeric conversion is
attempted. A wrong-typed tensor at a later contract can instead be preempted
by an earlier failure, and wrong-typed tensors under names matching no
contract are ignored. -/
theorem claimC5_type_mismatch_rejection (ocpu : Adapter) (eng : Engine)
    (tensors : TensorMap) (live : Nat) (pre : List IOInfo) (c : IOInfo)
    (post : List IOInfo) (v : TVal)
    (hT : ocpu.InputType = DType.float32 ∨ ocpu.InputType = DType.uint8)
    (hsplit : ocpu.InputInfo = pre ++ c :: post)
    (hpre : ∀ i ∈ pre, ∃ w, findT tensors i.name = some w ∧
      w.dtype = ocpu.InputType ∧ listProd w.shape = (w.dataLen : Int))
    (hfound : findT tensors c.name = some v)
    (hneq : v.dtype ≠ ocpu.InputType) :
    (Infer ocpu eng tensors live).1 =
      .error (InferErr.typeMismatch c.name v.dtype c.dtype) := by
  apply infer_conv_error ocpu eng tensors live _ hT
  rw [hsplit]
  exact (mlT_error_at ocpu.InputType tensors pre c post [] live hpre).2 v hfound hneq

/-- Claim C5 witness: concrete instance — "a" is supplied correctly and "b"
is supplied as uint8 against a float32 contract; the call fails with the
type-mismatch error for "b". -/
theorem claimC5_witness :
    (Infer fxAdapterAB fxEngineF [("a", fxValF), ("b", fxValU)] 0).1 =
      .error (InferErr.typeMismatch "b" DType.uint8 DType.float32) :=
  claimC5_type_mismatch_rejection fxAdapterAB fxEngineF
    [("a", fxValF), ("b", fxValU)] 0 [fxInA] fxInB [] fxValU (Or.inl rfl) rfl
    (by
      intro i hi
      have hia : i = fxInA := by simpa using hi
      subst hia
      exact ⟨fxValF, rfl, rfl, by decide⟩)
    rfl (by decide)

/-- Claim C6 (amended): construction never succeeds for a model with a
type-mixed side — every successfully constructed adapter is type-homogeneous
on both sides (invariant I1) — but the reported error is the mixed-type one
only when the first tensor of the mixed side passes the supported-type
check; otherwise the unsupported-type error preempts it. -/
theorem claimC6_homogeneity_invariant (inputInfo outputInfo : List IOInfo)
    (lp : String) (ad : Adapter)
    (hok : initModel inputInfo outputInfo lp = .ok ad) :
    (∀ i ∈ inputInfo, i.dtype = ad.InputType) ∧
    (∀ o ∈ outputInfo, o.dtype = ad.OutputType) := by
  obtain ⟨-, -, hIT, hOT, -, hIn, hOut⟩ :=
    initModel_ok_inv inputInfo outputInfo lp ad hok
  exact ⟨fun i hi => (hIn i hi).trans hIT.symm,
         fun o ho => (hOut o ho).trans hOT.symm⟩

/-- Claim C6 witness: concrete homogeneous model — both stored element types
agree with every discovered tensor's type. -/
theorem claimC6_witness :
    fxInB.dtype = fxAdapterAB.InputType ∧ fxOut.dtype = fxAdapterAB.OutputType :=
  ⟨(claimC6_homogeneity_invariant [fxInA, fxInB] [fxOut] "" fxAdapterAB rfl).1
      fxInB (by decide),
   (claimC6_homogeneity_invariant [fxInA, fxInB] [fxOut] "" fxAdapterAB rfl).2
      fxOut (by decide)⟩

/-- Claim C7: after a successful Infer call on an adapter constructed by
`initModel`, the result map's keys are exactly the output names of the
cached metadata, in declared order (given the model's output names are
distinct, one entry per name), and every metadata output name is found in
the result map. -/
theorem claimC7_round_trip_naming (inputInfo outputInfo : List IOInfo)
    (lp : String) (ad : Adapter) (eng : Engine) (tensors res : TensorMap)
    (live live' : Nat)
    (had : initModel inputInfo outputInfo lp = .ok ad)
    (hnodup : (outputInfo.map IOInfo.name).Nodup)
    (hrun : Infer ad eng tensors live = (.ok res, live')) :
    res.map Prod.fst = ad.metadata.outputs.map TensorInfo.name ∧
    res.length = ad.metadata.outputs.length ∧
    ∀ n, n ∈ ad.metadata.outputs.map TensorInfo.name → (findT res n).isSome := by
  obtain ⟨-, hOutInfo, -, -, hmd, -, -⟩ :=
    initModel_ok_inv inputInfo outputInfo lp ad had
  obtain ⟨outs, -, hbuild⟩ := infer_ok_inv ad eng tensors live live' res hrun
  have hnames : ad.metadata.outputs.map TensorInfo.name =
      outputInfo.map IOInfo.name := by
    rw [hmd]
    exact (createMetadata_names inputInfo outputInfo lp).2
  have hnodup' : (ad.OutputInfo.map IOInfo.name).Nodup := by
    rw [hOutInfo]; exact hnodup
  have hdisj : ∀ i ∈ ad.OutputInfo, i.name ∉ ([] : TensorMap).map Prod.fst := by
    intro i _; simp
  have hkeys := build_keys ad.OutputInfo outs [] res hnodup' hdisj hbuild
  simp only [List.map_nil, List.nil_append] at hkeys
  refine ⟨?_, ?_, ?_⟩
  · rw [hkeys, hOutInfo, hnames]
  · have h1 : res.length = (res.map Prod.fst).length := by simp
    rw [h1, hkeys, hOutInfo, hmd]
    simp [createMetadata]
  · intro n hn
    apply findT_isSome_of_mem_keys
    rw [hkeys, hOutInfo, ← hnames]
    exact hn

/-- Claim C7 witness: concrete successful call — the result map's single key
is the metadata's single output name "out". -/
theorem claimC7_witness :
    ([("out", fxValF)] : TensorMap).map Prod.fst =
      fxAdapterAB.metadata.outputs.map TensorInfo.name :=
  (claimC7_round_trip_naming [fxInA, fxInB] [fxOut] "" fxAdapterAB fxEngineF
    [("a", fxValF), ("b", fxValF)] [("out", fxValF)] 0 0 rfl (by decide) rfl).1

/-- Claim C8: Metadata returns the document computed once at construction by
`createMetadata`: one entry per discovered input and output in discovery
order, names and shapes equal to the model's declared ones, the
human-readable labels "float32"/"uint8" for the supported element types,
and every output's extra map carrying the configured label path under
"labels" (even when empty). -/
theorem claimC8_metadata_document (inputInfo outputInfo : List IOInfo)
    (lp : String) (ad : Adapter) (b : Bool)
    (hok : initModel inputInfo outputInfo lp = .ok ad) :
    (MetadataGo ⟨ad, b⟩).1 = .ok (createMetadata inputInfo outputInfo lp) ∧
    ad.metadata.inputs.length = inputInfo.length ∧
    ad.metadata.outputs.length = outputInfo.length ∧
    ad.metadata.inputs.map TensorInfo.name = inputInfo.map IOInfo.name ∧
    ad.metadata.outputs.map TensorInfo.name = outputInfo.map IOInfo.name ∧
    ad.metadata.inputs.map TensorInfo.shape = inputInfo.map IOInfo.dims ∧
    ad.metadata.outputs.map TensorInfo.shape = outputInfo.map IOInfo.dims ∧
    (∀ k i, inputInfo.get? k = some i → i.dtype = DType.float32 →
      (ad.metadata.inputs.get? k).map TensorInfo.dataType = some "float32") ∧
    (∀ k i, inputInfo.get? k = some i → i.dtype = DType.uint8 →
      (ad.metadata.inputs.get? k).map TensorInfo.dataType = some "uint8") ∧
    (∀ k o, outputInfo.get? k = some o → o.dtype = DType.float32 →
      (ad.metadata.outputs.get? k).map TensorInfo.dataType = some "float32") ∧
    (∀ k o, outputInfo.get? k = some o → o.dtype = DType.uint8 →
      (ad.metadata.outputs.get? k).map TensorInfo.dataType = some "uint8") ∧
    (∀ t ∈ ad.metadata.outputs, t.extra = [("labels", lp)]) := by
  obtain ⟨-, -, -, -, hmd, -, -⟩ :=
    initModel_ok_inv inputInfo outputInfo lp ad hok
  refine ⟨by simp [MetadataGo, hmd], ?_, ?_, ?_, ?_, ?_, ?_, ?_, ?_, ?_, ?_, ?_⟩
  · rw [hmd]; simp [createMetadata]
  · rw [hmd]; simp [createMetadata]
  · rw [hmd]; exact (createMetadata_names inputInfo outputInfo lp).1
  · rw [hmd]; exact (createMetadata_names inputInfo outputInfo lp).2
  · rw [hmd]
    simp [createMetadata, convertInt64SliceToInt, List.map_map, Function.comp]
  · rw [hmd]
    simp [createMetadata, convertInt64SliceToInt, List.map_map, Function.comp]
  · intro k i hk hft
    rw [hmd]
    simp [createMetadata, List.getElem?_map, hk, dataTypeLabel, DataTypeMap, hft]
    exact ⟨i, by simpa using hk, by rw [hft]⟩
  · intro k i hk hft
    rw [hmd]
    simp [createMetadata, List.getElem?_map, hk, dataTypeLabel, DataTypeMap, hft]
    exact ⟨i, by simpa using hk, by rw [hft]⟩
  · intro k o hk hft
    rw [hmd]
    simp [createMetadata, List.getElem?_map, hk, dataTypeLabel, DataTypeMap, hft]
    exact ⟨o, by simpa using hk, by rw [hft]⟩
  · intro k o hk hft
    rw [hmd]
    simp [createMetadata, List.getElem?_map, hk, dataTypeLabel, DataTypeMap, hft]
    exact ⟨o, by simpa using hk, by rw [hft]⟩
  · intro t ht
    rw [hmd] at ht
    simp only [createMetadata, List.mem_map] at ht
    obtain ⟨o, -, rfl⟩ := ht
    rfl

/-- Claim C8 witness: concrete instance — Metadata on the fixture adapter
returns the document created from its discovery results. -/
theorem claimC8_witness :
    (MetadataGo ⟨fxAdapterAB, true⟩).1 =
      .ok (createMetadata [fxInA, fxInB] [fxOut] "") :=
  (claimC8_metadata_document [fxInA, fxInB] [fxOut] "" fxAdapterAB true rfl).1

/-- Claim C9: the result of a successful Infer call is a map freshly built
from the empty map over the output contracts: it binds no name outside the
output contract names — in particular no binding of the caller's input map
leaks into it — and every key it has is an output contract name. The code
itself performs only reads on the caller's map (`tensors[inf.Name]`
lookups); no write to it exists on any path. -/
theorem claimC9_result_map_fresh (ocpu : Adapter) (eng : Engine)
    (tensors res : TensorMap) (live live' : Nat)
    (hrun : Infer ocpu eng tensors live = (.ok res, live')) :
    (∀ n, n ∉ ocpu.OutputInfo.map IOInfo.name → findT res n = none) ∧
    (∀ n, n ∈ res.map Prod.fst → n ∈ ocpu.OutputInfo.map IOInfo.name) := by
  obtain ⟨outs, -, hbuild⟩ := infer_ok_inv ocpu eng tensors live live' res hrun
  constructor
  · intro n hn
    exact build_find_none ocpu.OutputInfo outs [] res n hn rfl hbuild
  · intro n hn
    rcases build_keys_subset ocpu.OutputInfo outs [] res n hbuild hn with h | h
    · simp at h
    · exact h

/-- Claim C9 witness: concrete successful call whose input map carries an
extra binding "junk"; the result map does not contain it. -/
theorem claimC9_witness :
    findT [("out", fxValF)] "junk" = none :=
  (claimC9_result_map_fresh fxAdapterAB fxEngineF fxMapJunk
    [("out", fxValF)] 0 0 rfl).1 "junk" (by decide)

/-- An adapter whose bound output type is the undefined zero value can never
complete an Infer call successfully, and never reaches the output-indexing
code (so no panic): the call fails in input conversion or in the output
type-dispatch default branch. -/
theorem infer_fails_of_output_undefined (ocpu : Adapter) (eng : Engine)
    (tensors : TensorMap) (live : Nat)
    (hOT : ocpu.OutputType = DType.undefined) :
    (∃ e, (Infer ocpu eng tensors live).1 = .error e) ∧
    (Infer ocpu eng tensors live).1 ≠ .error InferErr.panicIndexOutOfRange := by
  have hbody : ∀ Tin, ∃ e, (inferBody Tin ocpu eng tensors live).1 = .error e ∧
      e ≠ InferErr.panicIndexOutOfRange := by
    intro Tin
    rcases h1 : mlTensorsToOnnxTensors Tin tensors ocpu.InputInfo [] live with ⟨r, l1⟩
    cases r with
    | error e =>
      refine ⟨e, by simp [inferBody, h1], ?_⟩
      intro hc
      subst hc
      exact mlT_no_panic Tin tensors ocpu.InputInfo [] live (by rw [h1])
    | ok inputs =>
      exact ⟨InferErr.outputNotImplemented DType.undefined,
        by simp [inferBody, h1, hOT], by simp⟩
  have hred : (Infer ocpu eng tensors live).1 =
        (inferBody ocpu.InputType ocpu eng tensors live).1 ∨
      (Infer ocpu eng tensors live).1 =
        .error (InferErr.inputNotImplemented ocpu.InputType) := by
    rcases hIT : ocpu.InputType <;> simp [Infer, hIT]
  rcases hred with hl | hr
  · obtain ⟨e, he, hne⟩ := hbody ocpu.InputType
    refine ⟨⟨e, by rw [hl]; exact he⟩, ?_⟩
    rw [hl, he]
    intro hc
    exact hne (by simpa using hc)
  · refine ⟨⟨InferErr.inputNotImplemented ocpu.InputType, hr⟩, ?_⟩
    rw [hr]
    simp

/-- Claim C10 (amended): a zero-input (resp. zero-output) model constructs
successfully whenever the other side validates, and the stored element type
for the empty side is the undefined zero value. With zero inputs every
Infer call returns the input-type not-implemented error of the dispatch
default branch. With zero outputs every Infer call fails without panicking,
but not always from the default branch: an input-conversion failure (for
example a missing input) preempts the output-type not-implemented error. -/
theorem claimC10_zero_side_behavior :
    (∀ outputInfo lp ad, initModel [] outputInfo lp = .ok ad →
      ad.InputType = DType.undefined ∧
      ∀ eng tensors live, (Infer ad eng tensors live).1 =
        .error (InferErr.inputNotImplemented DType.undefined)) ∧
    (∀ inputInfo lp ad, initModel inputInfo [] lp = .ok ad →
      ad.OutputType = DType.undefined ∧
      ∀ eng tensors live,
        (∃ e, (Infer ad eng tensors live).1 = .error e) ∧
        (Infer ad eng tensors live).1 ≠ .error InferErr.panicIndexOutOfRange) := by
  constructor
  · intro outputInfo lp ad hok
    obtain ⟨-, -, hIT, -, -, -, -⟩ := initModel_ok_inv [] outputInfo lp ad hok
    have hIT' : ad.InputType = DType.undefined := by simpa [headDtype] using hIT
    refine ⟨hIT', ?_⟩
    intro eng tensors live
    simp [Infer, hIT']
  · intro inputInfo lp ad hok
    obtain ⟨-, -, -, hOT, -, -, -⟩ := initModel_ok_inv inputInfo [] lp ad hok
    have hOT' : ad.OutputType = DType.undefined := by simpa [headDtype] using hOT
    refine ⟨hOT', ?_⟩
    intro eng tensors live
    exact infer_fails_of_output_undefined ad eng tensors live hOT'

/-- Claim C10 witness: concrete zero-input and zero-output models — the
zero-input adapter's every call returns the not-implemented error; the
zero-output adapter stores the undefined output type and a call on it fails
without panicking. -/
theorem claimC10_witness :
    ((Infer (match initModel [] [fxOut] "" with
        | .ok a => a
        | .error _ => emptyAdapter) fxEngineF [] 0).1 =
      .error (InferErr.inputNotImplemented DType.undefined)) ∧
    fxAdapterZeroOut.OutputType = DType.undefined ∧
    (∃ e, (Infer fxAdapterZeroOut fxEngineF [] 0).1 = .error e) :=
  ⟨(claimC10_zero_side_behavior.1 [fxOut] ""
      (match initModel [] [fxOut] "" with
        | .ok a => a
        | .error _ => emptyAdapter) rfl).2 fxEngineF [] 0,
   (claimC10_zero_side_behavior.2 [⟨"in", .float32, [1]⟩] "" fxAdapterZeroOut rfl).1,
   ((claimC10_zero_side_behavior.2 [⟨"in", .float32, [1]⟩] "" fxAdapterZeroOut rfl).2
      fxEngineF [] 0).1⟩
